import Mathlib

/-!
Shallow embedding of the game-simulation core of `SnakeGame`
(src/python_1/Snake_Game.py): the state fields touched by `reset`,
`change_direction`, `place_food` and `tick`, with the Tkinter rendering and
timer scheduling stripped (the spec's View/Input collaborator, out of scope).

Python's `%` and `//` (floored) on integers are embedded as `Int.fmod` and
`Int.fdiv`.  `random.choice(empty_cells)` is embedded nondeterministically:
every call site takes an extra `k : Nat` choosing the index `k % length`
into `empty_cells`, so that quantifying over `k` ranges over exactly the
outcomes the uniform choice can produce.  `int(self.speed * 0.95)` on the
integer speeds involved is `speed * 95 / 100` in `Nat` (floor).
-/

/-- A grid cell `(x, y)`, mirroring `Cell = Tuple[int, int]`. -/
abbrev Cell := Int × Int

/-- The simulation state of `SnakeGame`: the fields read or written by
`reset`, `change_direction`, `place_food` and `tick`.  `score` embeds the
`score_var` IntVar; `speed` is the tick interval in ms. -/
structure GameState where
  cols : Int
  rows : Int
  snake : List Cell
  direction : Cell
  next_direction : Cell
  food : Option Cell
  score : Nat
  speed : Nat
  game_over : Bool
deriving DecidableEq, Repr

/-- The list comprehension in `place_food`:
`[(x, y) for x in range(self.cols) for y in range(self.rows)
  if (x, y) not in self.snake]` (x-major order, as in Python). -/
def emptyCells (s : GameState) : List Cell :=
  ((List.range s.cols.toNat).flatMap (fun x =>
    (List.range s.rows.toNat).map (fun y => (Int.ofNat x, Int.ofNat y)))).filter
    (fun c => decide (c ∉ s.snake))

/-- `SnakeGame.place_food`: `self.food = random.choice(empty_cells) if
empty_cells else None`.  The random draw is the index `k % length`; on an
empty list the lookup yields `none`, matching the `else None` guard. -/
def place_food (k : Nat) (s : GameState) : GameState :=
  let empty := emptyCells s
  { s with food := empty[k % empty.length]? }

/-- `SnakeGame.change_direction`: reject (return unchanged) exactly when `d`
is the componentwise negation of the committed direction, else record `d`
as `next_direction`.  There is no aliveness guard in the source. -/
def change_direction (d : Cell) (s : GameState) : GameState :=
  if d.1 = -s.direction.1 ∧ d.2 = -s.direction.2 then s
  else { s with next_direction := d }

/-- The wrapped new head computed inside `SnakeGame.tick`:
`((head_x + dx) % self.cols, (head_y + dy) % self.rows)` where the
direction has just been committed from `next_direction`.  `self.snake[0]`
is total here via `headD`; the snake is nonempty in every reachable state. -/
def newHead (s : GameState) : Cell :=
  let hd := s.snake.headD (0, 0)
  (Int.fmod (hd.1 + s.next_direction.1) s.cols,
   Int.fmod (hd.2 + s.next_direction.2) s.rows)

/-- `SnakeGame.tick` (simulation part; `redraw` and `after` dropped):
early return when `game_over`; commit `next_direction`; compute the wrapped
new head; on self-collision (checked against the pre-move body) call
`on_game_over`, which sets `game_over = True`, and return; otherwise insert
the head at the front, then either eat (score + 1, speed to
`max(30, int(speed * 0.95))`, place new food — note the tail is still
present when `place_food` scans the grid) or pop the tail. -/
def tick (k : Nat) (s : GameState) : GameState :=
  if s.game_over then s
  else
    let s1 := { s with direction := s.next_direction }
    let nh := newHead s
    if nh ∈ s1.snake then { s1 with game_over := true }
    else
      let grown := { s1 with snake := nh :: s1.snake }
      if grown.food = some nh then
        place_food k { grown with score := grown.score + 1,
                                  speed := max 30 (grown.speed * 95 / 100) }
      else
        { grown with snake := grown.snake.dropLast }

/-- `SnakeGame.reset` (simulation part): 3-cell horizontal snake at the grid
middle (`mid_x = cols // 2`, Python floored division), moving right, food
placed, `game_over = False`, `speed = 120`, score 0.  `cols` and `rows` are
fixed at construction (`width // cell_size`, `height // cell_size`). -/
def resetGame (cols rows : Int) (k : Nat) : GameState :=
  let mid_x := Int.fdiv cols 2
  let mid_y := Int.fdiv rows 2
  place_food k
    { cols := cols, rows := rows,
      snake := [(mid_x, mid_y), (mid_x - 1, mid_y), (mid_x - 2, mid_y)],
      direction := (1, 0), next_direction := (1, 0),
      food := none, score := 0, speed := 120, game_over := false }

/-- States reachable from `reset` by any sequence of `tick`,
`change_direction` and `place_food` calls (each random draw arbitrary). -/
inductive Reachable (cols rows : Int) : GameState → Prop
  | reset (k : Nat) : Reachable cols rows (resetGame cols rows k)
  | tick (k : Nat) (s : GameState) :
      Reachable cols rows s → Reachable cols rows (tick k s)
  | change (d : Cell) (s : GameState) :
      Reachable cols rows s → Reachable cols rows (change_direction d s)
  | food (k : Nat) (s : GameState) :
      Reachable cols rows s → Reachable cols rows (place_food k s)

/-- A reachable game-over state on a 3×3 grid: from `reset`, two ticks while
moving right wrap the head onto the body (`(0, 1)` is still occupied). -/
def deadState : GameState := tick 0 (tick 0 (resetGame 3 3 0))

/-- A snake curled into a 2×2 block about to move into its own tail cell:
head `(0, 0)`, tail `(0, 1)`, pending direction down. -/
def tailChaseState : GameState :=
  { cols := 5, rows := 5, snake := [(0, 0), (1, 0), (1, 1), (0, 1)],
    direction := (1, 0), next_direction := (0, 1),
    food := none, score := 0, speed := 120, game_over := false }

/-- The spec's boundary example: 30 columns, head at `(29, 5)`, moving
right. -/
def edgeState : GameState :=
  { cols := 30, rows := 20, snake := [(29, 5), (28, 5), (27, 5)],
    direction := (1, 0), next_direction := (1, 0),
    food := none, score := 0, speed := 120, game_over := false }

/-- A plain rightward-moving state used to exercise direction changes. -/
def rightState : GameState :=
  { cols := 10, rows := 10, snake := [(5, 5), (4, 5), (3, 5)],
    direction := (1, 0), next_direction := (1, 0),
    food := none, score := 0, speed := 120, game_over := false }

/-- A state one tick away from eating: food directly ahead of the head. -/
def eatState : GameState :=
  { cols := 5, rows := 5, snake := [(2, 2), (1, 2)],
    direction := (1, 0), next_direction := (1, 0),
    food := some (3, 2), score := 4, speed := 120, game_over := false }

/-- A state whose snake occupies the entire 2×1 grid: no free cell. -/
def fullState : GameState :=
  { cols := 2, rows := 1, snake := [(0, 0), (1, 0)],
    direction := (1, 0), next_direction := (1, 0),
    food := none, score := 0, speed := 120, game_over := false }

/-- A small state with free cells left for food placement. -/
def freeState : GameState :=
  { cols := 3, rows := 2, snake := [(0, 0)],
    direction := (1, 0), next_direction := (1, 0),
    food := none, score := 0, speed := 120, game_over := false }

/-! ### Helper lemmas: which fields each operation leaves unchanged, and the
four branches of `tick`. -/

theorem place_food_snake (k : Nat) (s : GameState) :
    (place_food k s).snake = s.snake := rfl

theorem place_food_score (k : Nat) (s : GameState) :
    (place_food k s).score = s.score := rfl

theorem place_food_speed (k : Nat) (s : GameState) :
    (place_food k s).speed = s.speed := rfl

theorem place_food_game_over (k : Nat) (s : GameState) :
    (place_food k s).game_over = s.game_over := rfl

theorem change_direction_snake (d : Cell) (s : GameState) :
    (change_direction d s).snake = s.snake := by
  unfold change_direction; split <;> rfl

theorem change_direction_direction (d : Cell) (s : GameState) :
    (change_direction d s).direction = s.direction := by
  unfold change_direction; split <;> rfl

theorem change_direction_food (d : Cell) (s : GameState) :
    (change_direction d s).food = s.food := by
  unfold change_direction; split <;> rfl

theorem change_direction_score (d : Cell) (s : GameState) :
    (change_direction d s).score = s.score := by
  unfold change_direction; split <;> rfl

theorem change_direction_speed (d : Cell) (s : GameState) :
    (change_direction d s).speed = s.speed := by
  unfold change_direction; split <;> rfl

theorem change_direction_game_over (d : Cell) (s : GameState) :
    (change_direction d s).game_over = s.game_over := by
  unfold change_direction; split <;> rfl

theorem place_food_direction (k : Nat) (s : GameState) :
    (place_food k s).direction = s.direction := rfl

theorem resetGame_snake (cols rows : Int) (k : Nat) :
    (resetGame cols rows k).snake =
      [(Int.fdiv cols 2, Int.fdiv rows 2),
       (Int.fdiv cols 2 - 1, Int.fdiv rows 2),
       (Int.fdiv cols 2 - 2, Int.fdiv rows 2)] := rfl

theorem resetGame_score (cols rows : Int) (k : Nat) :
    (resetGame cols rows k).score = 0 := rfl

theorem resetGame_speed (cols rows : Int) (k : Nat) :
    (resetGame cols rows k).speed = 120 := rfl

theorem resetGame_game_over (cols rows : Int) (k : Nat) :
    (resetGame cols rows k).game_over = false := rfl

theorem mem_emptyCells (s : GameState) (c : Cell) :
    c ∈ emptyCells s ↔
      0 ≤ c.1 ∧ c.1 < s.cols ∧ 0 ≤ c.2 ∧ c.2 < s.rows ∧ c ∉ s.snake := by
  obtain ⟨cx, cy⟩ := c
  unfold emptyCells
  rw [List.mem_filter, List.mem_flatMap]
  constructor
  · rintro ⟨⟨x, hx, hmx⟩, hp⟩
    rw [List.mem_range] at hx
    rw [List.mem_map] at hmx
    obtain ⟨y, hy, he⟩ := hmx
    rw [List.mem_range] at hy
    rw [Prod.mk.injEq] at he
    obtain ⟨he1, he2⟩ := he
    rw [decide_eq_true_eq] at hp
    rw [Int.ofNat_eq_natCast] at he1 he2
    refine ⟨by omega, by omega, by omega, by omega, hp⟩
  · rintro ⟨h1, h2, h3, h4, h5⟩
    refine ⟨⟨cx.toNat, ?_, ?_⟩, ?_⟩
    · rw [List.mem_range]; omega
    · rw [List.mem_map]
      refine ⟨cy.toNat, by rw [List.mem_range]; omega, ?_⟩
      rw [Prod.mk.injEq, Int.ofNat_eq_natCast, Int.ofNat_eq_natCast]
      constructor <;> omega
    · rw [decide_eq_true_eq]; exact h5

theorem nodup_emptyCells (s : GameState) : (emptyCells s).Nodup := by
  unfold emptyCells
  apply List.Nodup.filter
  apply List.nodup_flatMap.mpr
  refine ⟨?_, ?_⟩
  · intro x hx
    have hinj : Function.Injective (fun y : Nat => (Int.ofNat x, Int.ofNat y)) := by
      intro a b hab
      rw [Prod.mk.injEq] at hab
      exact Int.ofNat_inj.mp hab.2
    exact (List.nodup_range s.rows.toNat).map hinj
  · refine (List.pairwise_lt_range _).imp ?_
    intro a b hab
    rw [Function.onFun, List.disjoint_left]
    rintro c hc1 hc2
    rw [List.mem_map] at hc1 hc2
    obtain ⟨y1, _, rfl⟩ := hc1
    obtain ⟨y2, _, he⟩ := hc2
    rw [Prod.mk.injEq] at he
    have hfst := he.1
    rw [Int.ofNat_eq_natCast, Int.ofNat_eq_natCast] at hfst
    omega

theorem tick_dead (k : Nat) (s : GameState) (h : s.game_over = true) :
    tick k s = s := by
  simp [tick, h]

theorem tick_fatal (k : Nat) (s : GameState) (h1 : s.game_over = false)
    (h2 : newHead s ∈ s.snake) :
    tick k s = { s with direction := s.next_direction, game_over := true } := by
  simp [tick, h1, h2]

theorem tick_eat (k : Nat) (s : GameState) (h1 : s.game_over = false)
    (h2 : newHead s ∉ s.snake) (h3 : s.food = some (newHead s)) :
    tick k s = place_food k
      { s with direction := s.next_direction,
               snake := newHead s :: s.snake,
               score := s.score + 1,
               speed := max 30 (s.speed * 95 / 100) } := by
  simp [tick, h1, h2, h3]

theorem tick_move (k : Nat) (s : GameState) (h1 : s.game_over = false)
    (h2 : newHead s ∉ s.snake) (h3 : s.food ≠ some (newHead s)) :
    tick k s = { s with direction := s.next_direction,
                        snake := (newHead s :: s.snake).dropLast } := by
  simp [tick, h1, h2, h3]

/-! ### Reachability invariants. -/

theorem reachable_snake_inv (cols rows : Int) (s : GameState)
    (h : Reachable cols rows s) : s.snake.Nodup ∧ s.snake ≠ [] := by
  induction h with
  | reset k =>
    rw [resetGame_snake]
    refine ⟨?_, by simp⟩
    simp [List.nodup_cons, Prod.ext_iff]
    omega
  | tick k s hr ih =>
    cases hg : s.game_over with
    | true => rw [tick_dead k s hg]; exact ih
    | false =>
      by_cases hm : newHead s ∈ s.snake
      · rw [tick_fatal k s hg hm]; exact ih
      · by_cases hf : s.food = some (newHead s)
        · rw [tick_eat k s hg hm hf, place_food_snake]
          exact ⟨List.nodup_cons.mpr ⟨hm, ih.1⟩, by simp⟩
        · rw [tick_move k s hg hm hf]
          refine ⟨(List.dropLast_sublist _).nodup
            (List.nodup_cons.mpr ⟨hm, ih.1⟩), ?_⟩
          show (newHead s :: s.snake).dropLast ≠ []
          rw [← List.length_pos, List.length_dropLast, List.length_cons,
            Nat.add_sub_cancel]
          exact List.length_pos.mpr ih.2
  | change d s hr ih => rw [change_direction_snake]; exact ih
  | food k s hr ih => rw [place_food_snake]; exact ih

theorem reachable_length_score (cols rows : Int) (s : GameState)
    (h : Reachable cols rows s) : s.snake.length = s.score + 3 := by
  induction h with
  | reset k => rw [resetGame_snake, resetGame_score]; rfl
  | tick k s hr ih =>
    cases hg : s.game_over with
    | true => rw [tick_dead k s hg]; exact ih
    | false =>
      by_cases hm : newHead s ∈ s.snake
      · rw [tick_fatal k s hg hm]; exact ih
      · by_cases hf : s.food = some (newHead s)
        · rw [tick_eat k s hg hm hf, place_food_snake, place_food_score]
          simp only [List.length_cons]
          omega
        · rw [tick_move k s hg hm hf]
          simp only [List.length_dropLast, List.length_cons, Nat.add_sub_cancel]
          exact ih
  | change d s hr ih =>
    rw [change_direction_snake, change_direction_score]; exact ih
  | food k s hr ih => rw [place_food_snake, place_food_score]; exact ih

theorem reachable_speed_ge (cols rows : Int) (s : GameState)
    (h : Reachable cols rows s) : 30 ≤ s.speed := by
  induction h with
  | reset k => rw [resetGame_speed]; omega
  | tick k s hr ih =>
    cases hg : s.game_over with
    | true => rw [tick_dead k s hg]; exact ih
    | false =>
      by_cases hm : newHead s ∈ s.snake
      · rw [tick_fatal k s hg hm]; exact ih
      · by_cases hf : s.food = some (newHead s)
        · rw [tick_eat k s hg hm hf, place_food_speed]
          exact le_max_left _ _
        · rw [tick_move k s hg hm hf]; exact ih
  | change d s hr ih => rw [change_direction_speed]; exact ih
  | food k s hr ih => rw [place_food_speed]; exact ih

/-! ### The claims. -/

/-- C1 counterexample: in a reachable game-over state (two ticks from
`reset` on a 3×3 grid), `change_direction` with a non-reversal direction is
NOT a no-op — the source has no aliveness guard, so the pending direction
still changes. -/
theorem spec_C1_counterexample :
    deadState.game_over = true ∧
    change_direction (0, 1) deadState ≠ deadState := by
  constructor
  · decide
  · decide

/-- C1 (amended): after GameOver, `tick` is a complete no-op, and
`change_direction` leaves the snake body, committed direction, food, score,
speed and alive flag unchanged — but it may still overwrite the pending
direction, which has no further effect before a reset. -/
theorem spec_C1_gameover_frame (s : GameState) (k : Nat) (d : Cell)
    (h : s.game_over = true) :
    tick k s = s ∧
    (change_direction d s).snake = s.snake ∧
    (change_direction d s).direction = s.direction ∧
    (change_direction d s).food = s.food ∧
    (change_direction d s).score = s.score ∧
    (change_direction d s).speed = s.speed ∧
    (change_direction d s).game_over = true :=
  ⟨tick_dead k s h, change_direction_snake d s, change_direction_direction d s,
   change_direction_food d s, change_direction_score d s,
   change_direction_speed d s, (change_direction_game_over d s).trans h⟩

/-- C1 witness: the frame theorem applied at the concrete reachable
game-over state. -/
theorem spec_C1_gameover_frame_witness :
    deadState.game_over = true ∧
    tick 5 deadState = deadState ∧
    (change_direction (0, 1) deadState).score = deadState.score := by
  have h := spec_C1_gameover_frame deadState 5 (0, 1) (by decide)
  exact ⟨by decide, h.1, h.2.2.2.2.1⟩

/-- C2: while alive, if the wrapped new head (computed from the committed
pending direction) lies on the pre-move body — the tail included, since the
check precedes tail removal — the tick sets the game-over flag and leaves
the snake body exactly as it was. -/
theorem spec_C2_premove_self_collision (s : GameState) (k : Nat)
    (h1 : s.game_over = false) (h2 : newHead s ∈ s.snake) :
    (tick k s).game_over = true ∧ (tick k s).snake = s.snake := by
  rw [tick_fatal k s h1 h2]
  exact ⟨rfl, rfl⟩

/-- C2 witness: a snake curled in a 2×2 block moving into the cell its own
tail currently occupies dies, body unchanged. -/
theorem spec_C2_premove_self_collision_witness :
    newHead tailChaseState = (0, 1) ∧
    tailChaseState.snake.getLast? = some (0, 1) ∧
    (tick 0 tailChaseState).game_over = true ∧
    (tick 0 tailChaseState).snake = tailChaseState.snake := by
  have h := spec_C2_premove_self_collision tailChaseState 0 (by decide) (by decide)
  exact ⟨by decide, by decide, h.1, h.2⟩

/-- C3: in every state reachable from `reset` by `tick`,
`change_direction` and `place_food`, while alive the snake has no duplicate
cells and is nonempty. -/
theorem spec_C3_reachable_nodup (cols rows : Int) (s : GameState)
    (h : Reachable cols rows s) (ha : s.game_over = false) :
    s.snake.Nodup ∧ 1 ≤ s.snake.length := by
  have hi := reachable_snake_inv cols rows s h
  exact ⟨hi.1, List.length_pos.mpr hi.2⟩

/-- C3 witness: the invariant at the freshly reset 30×20 game. -/
theorem spec_C3_reachable_nodup_witness :
    (resetGame 30 20 0).game_over = false ∧
    (resetGame 30 20 0).snake.Nodup ∧ 1 ≤ (resetGame 30 20 0).snake.length := by
  have h := spec_C3_reachable_nodup 30 20 (resetGame 30 20 0)
    (Reachable.reset 0) (by decide)
  exact ⟨by decide, h.1, h.2⟩

/-- C4: the wrapped new head always lies inside the grid when both
dimensions are positive, and on a surviving tick this cell really becomes
the head of the snake. -/
theorem spec_C4_wraparound (s : GameState) (k : Nat)
    (hc : 0 < s.cols) (hr : 0 < s.rows) (hs : s.snake ≠ []) :
    (0 ≤ (newHead s).1 ∧ (newHead s).1 < s.cols ∧
     0 ≤ (newHead s).2 ∧ (newHead s).2 < s.rows) ∧
    (s.game_over = false → newHead s ∉ s.snake →
      (tick k s).snake.headD (0, 0) = newHead s) := by
  constructor
  · have h1 : (newHead s).1 =
        ((s.snake.headD (0, 0)).1 + s.next_direction.1).fmod s.cols := rfl
    have h2 : (newHead s).2 =
        ((s.snake.headD (0, 0)).2 + s.next_direction.2).fmod s.rows := rfl
    rw [h1, h2, Int.fmod_eq_emod _ hc.le, Int.fmod_eq_emod _ hr.le]
    exact ⟨Int.emod_nonneg _ (by omega), Int.emod_lt_of_pos _ hc,
      Int.emod_nonneg _ (by omega), Int.emod_lt_of_pos _ hr⟩
  · intro hg hm
    by_cases hf : s.food = some (newHead s)
    · rw [tick_eat k s hg hm hf, place_food_snake]
      rfl
    · rw [tick_move k s hg hm hf]
      show (newHead s :: s.snake).dropLast.headD (0, 0) = newHead s
      cases hsn : s.snake with
      | nil => exact absurd hsn hs
      | cons a t => rw [List.dropLast_cons₂]; rfl

/-- C4 witness: the spec's boundary example — cols = 30, head `(29, 5)`,
moving right wraps to `(0, 5)`, which stays in range and becomes the new
head; the game does not end. -/
theorem spec_C4_wraparound_witness :
    newHead edgeState = (0, 5) ∧
    (0 ≤ (newHead edgeState).1 ∧ (newHead edgeState).1 < edgeState.cols ∧
     0 ≤ (newHead edgeState).2 ∧ (newHead edgeState).2 < edgeState.rows) ∧
    (tick 0 edgeState).snake.headD (0, 0) = newHead edgeState ∧
    (tick 0 edgeState).game_over = false := by
  have h := spec_C4_wraparound edgeState 0 (by decide) (by decide) (by decide)
  exact ⟨by decide, h.1, h.2 (by decide) (by decide), by decide⟩

/-- C5: `change_direction d` is the identity when `d` is the componentwise
negation of the committed direction, and otherwise only records `d` as the
pending direction; in particular a rejected reversal leaves the direction
committed by the next tick unchanged. -/
theorem spec_C5_reversal_rejected (s : GameState) (d : Cell) (k : Nat) :
    (d.1 = -s.direction.1 ∧ d.2 = -s.direction.2 → change_direction d s = s) ∧
    (¬(d.1 = -s.direction.1 ∧ d.2 = -s.direction.2) →
      change_direction d s = { s with next_direction := d }) ∧
    (s.game_over = false → s.next_direction = s.direction →
      d.1 = -s.direction.1 ∧ d.2 = -s.direction.2 →
      (tick k (change_direction d s)).direction = s.direction) := by
  refine ⟨fun hrev => by rw [change_direction, if_pos hrev],
    fun hrev => by rw [change_direction, if_neg hrev], ?_⟩
  intro hg hnd hrev
  rw [change_direction, if_pos hrev]
  by_cases hm : newHead s ∈ s.snake
  · rw [tick_fatal k s hg hm]
    exact hnd
  · by_cases hf : s.food = some (newHead s)
    · rw [tick_eat k s hg hm hf, place_food_direction]
      exact hnd
    · rw [tick_move k s hg hm hf]
      exact hnd

/-- C5 witness: moving right, a `left` request is ignored and the next tick
still commits `right`. -/
theorem spec_C5_reversal_rejected_witness :
    change_direction (-1, 0) rightState = rightState ∧
    (tick 0 (change_direction (-1, 0) rightState)).direction = (1, 0) := by
  have h := spec_C5_reversal_rejected rightState (-1, 0) 0
  exact ⟨h.1 (by decide), (h.2.2 (by decide) (by decide) (by decide)).trans (by decide)⟩

/-- C6: a surviving tick inserts the wrapped new head at the front and pops
the tail exactly when no food was eaten, so the length grows by one on an
eating tick and is unchanged otherwise. -/
theorem spec_C6_growth (s : GameState) (k : Nat)
    (h1 : s.game_over = false) (h2 : newHead s ∉ s.snake) (hs : s.snake ≠ []) :
    (tick k s).snake.length =
      (if s.food = some (newHead s) then s.snake.length + 1
       else s.snake.length) ∧
    (tick k s).snake.head? = some (newHead s) ∧
    (tick k s).snake =
      (if s.food = some (newHead s) then newHead s :: s.snake
       else (newHead s :: s.snake).dropLast) := by
  by_cases hf : s.food = some (newHead s)
  · rw [tick_eat k s h1 h2 hf, place_food_snake, if_pos hf, if_pos hf]
    exact ⟨rfl, rfl, rfl⟩
  · rw [tick_move k s h1 h2 hf, if_neg hf, if_neg hf]
    refine ⟨?_, ?_, rfl⟩
    · show (newHead s :: s.snake).dropLast.length = s.snake.length
      rw [List.length_dropLast, List.length_cons, Nat.add_sub_cancel]
    · show (newHead s :: s.snake).dropLast.head? = some (newHead s)
      cases hsn : s.snake with
      | nil => exact absurd hsn hs
      | cons a t => rw [List.dropLast_cons₂]; rfl

/-- C6 witness: eating the food ahead grows the 2-cell snake to 3 cells,
with the food cell as the new head. -/
theorem spec_C6_growth_witness :
    eatState.snake.length = 2 ∧
    (tick 0 eatState).snake.length = 3 ∧
    (tick 0 eatState).snake.head? = some (3, 2) := by
  have h := spec_C6_growth eatState 0 (by decide) (by decide) (by decide)
  refine ⟨by decide, ?_, h.2.1.trans (by decide)⟩
  rw [h.1]
  decide

/-- C7: an eating tick adds exactly 1 to the score and sets the interval to
`max 30 (speed * 95 / 100)`; the result is never below 30 and never above
the previous interval once that is at least 30 — which holds in every
reachable state. -/
theorem spec_C7_speed_ramp (s : GameState) (k : Nat)
    (h1 : s.game_over = false) (h2 : newHead s ∉ s.snake)
    (h3 : s.food = some (newHead s)) :
    (tick k s).score = s.score + 1 ∧
    (tick k s).speed = max 30 (s.speed * 95 / 100) ∧
    30 ≤ (tick k s).speed ∧
    (30 ≤ s.speed → (tick k s).speed ≤ s.speed) ∧
    (∀ cols rows : Int, Reachable cols rows s → 30 ≤ s.speed) := by
  rw [tick_eat k s h1 h2 h3, place_food_score, place_food_speed]
  refine ⟨rfl, rfl, le_max_left _ _, ?_,
    fun cols rows hr => reachable_speed_ge cols rows s hr⟩
  intro h30
  show max 30 (s.speed * 95 / 100) ≤ s.speed
  exact max_le h30 (by omega)

/-- C7 witness: eating at interval 120 yields interval 114 and one more
point. -/
theorem spec_C7_speed_ramp_witness :
    (tick 0 eatState).score = 5 ∧
    (tick 0 eatState).speed = 114 ∧
    30 ≤ (tick 0 eatState).speed ∧
    (tick 0 eatState).speed ≤ eatState.speed := by
  have h := spec_C7_speed_ramp eatState 0 (by decide) (by decide) (by decide)
  exact ⟨h.1.trans (by decide), h.2.1.trans (by decide), h.2.2.1,
    h.2.2.2.1 (by decide)⟩

/-- C8: `place_food` yields `none` exactly when no free cell exists; any
placed food cell is a free grid cell; every free grid cell is a possible
outcome of the random draw; and the free-cell list has no duplicates, so
the draw over it is unbiased. -/
theorem spec_C8_food_free (s : GameState) (k : Nat) :
    ((place_food k s).food = none ↔ emptyCells s = []) ∧
    (∀ c : Cell, (place_food k s).food = some c →
      c ∉ s.snake ∧ 0 ≤ c.1 ∧ c.1 < s.cols ∧ 0 ≤ c.2 ∧ c.2 < s.rows) ∧
    (∀ c : Cell, c ∉ s.snake → 0 ≤ c.1 → c.1 < s.cols → 0 ≤ c.2 →
      c.2 < s.rows → ∃ j : Nat, (place_food j s).food = some c) ∧
    (emptyCells s).Nodup := by
  have hfood : ∀ j : Nat,
      (place_food j s).food = (emptyCells s)[j % (emptyCells s).length]? :=
    fun j => rfl
  refine ⟨?_, ?_, ?_, nodup_emptyCells s⟩
  · rw [hfood k]
    constructor
    · intro hn
      by_contra hne
      have hlen : 0 < (emptyCells s).length := List.length_pos.mpr hne
      rw [List.getElem?_eq_getElem (Nat.mod_lt _ hlen)] at hn
      exact absurd hn (by simp)
    · intro he
      rw [he]
      rfl
  · intro c hc
    rw [hfood k] at hc
    obtain ⟨hlt, hg⟩ := List.getElem?_eq_some.mp hc
    have hmem : c ∈ emptyCells s := by
      rw [← hg]
      exact List.getElem_mem hlt
    have hh := (mem_emptyCells s c).mp hmem
    exact ⟨hh.2.2.2.2, hh.1, hh.2.1, hh.2.2.1, hh.2.2.2.1⟩
  · intro c hns h1 h2 h3 h4
    have hmem : c ∈ emptyCells s := (mem_emptyCells s c).mpr ⟨h1, h2, h3, h4, hns⟩
    obtain ⟨i, hi, hg⟩ := List.mem_iff_getElem.mp hmem
    refine ⟨i, ?_⟩
    rw [hfood i, Nat.mod_eq_of_lt hi, List.getElem?_eq_getElem hi, hg]

/-- C8 witness: on a grid fully covered by the snake the food becomes
absent; on a grid with free cells the draw lands on a free cell. -/
theorem spec_C8_food_free_witness :
    (place_food 0 fullState).food = none ∧
    (place_food 1 freeState).food = some (1, 0) ∧
    ((1, 0) : Cell) ∉ freeState.snake := by
  have h1 := (spec_C8_food_free fullState 0).1
  have h2 := (spec_C8_food_free freeState 1).2.1 (1, 0)
  refine ⟨h1.mpr (by decide), by decide, (h2 (by decide)).1⟩

/-- C9 counterexample: constructing with a 1×1 grid (fewer than 3 columns)
is NOT rejected — `reset` runs without any validation and produces a
running (alive) simulation whose snake extends outside the grid. -/
theorem spec_C9_counterexample :
    (resetGame 1 1 0).game_over = false ∧
    (resetGame 1 1 0).snake = [(0, 0), (-1, 0), (-2, 0)] := by
  constructor
  · decide
  · decide

/-- C9 (amended): no construction-time validation exists in the source:
for every grid size, including non-positive and too-small dimensions,
construction yields a running simulation with score 0 and a 3-cell snake —
and with fewer than 3 columns part of the snake lies at negative x. -/
theorem spec_C9_no_validation (cols rows : Int) (k : Nat) :
    (resetGame cols rows k).game_over = false ∧
    (resetGame cols rows k).score = 0 ∧
    (resetGame cols rows k).snake.length = 3 ∧
    (cols < 3 → ∃ c ∈ (resetGame cols rows k).snake, c.1 < 0) := by
  refine ⟨rfl, rfl, rfl, ?_⟩
  intro h3
  refine ⟨(Int.fdiv cols 2 - 2, Int.fdiv rows 2), ?_, ?_⟩
  · rw [resetGame_snake]
    simp
  · show Int.fdiv cols 2 - 2 < 0
    rw [Int.fdiv_eq_ediv _ (by omega)]
    omega

/-- C9 witness: the no-validation theorem at a 2×2 grid. -/
theorem spec_C9_no_validation_witness :
    (resetGame 2 2 0).game_over = false ∧
    (resetGame 2 2 0).score = 0 ∧
    (resetGame 2 2 0).snake.length = 3 ∧
    ∃ c ∈ (resetGame 2 2 0).snake, c.1 < 0 := by
  have h := spec_C9_no_validation 2 2 0
  exact ⟨h.1, h.2.1, h.2.2.1, h.2.2.2 (by decide)⟩

/-- C10: in every reachable state, while alive, the snake length equals the
score plus 3 — reset yields 3 cells and score 0, and only an eating tick
changes either, by one each. -/
theorem spec_C10_length_score (cols rows : Int) (s : GameState)
    (h : Reachable cols rows s) (ha : s.game_over = false) :
    s.snake.length = s.score + 3 :=
  reachable_length_score cols rows s h

/-- C10 witness: the invariant at the freshly reset 12×8 game. -/
theorem spec_C10_length_score_witness :
    (resetGame 12 8 3).game_over = false ∧
    (resetGame 12 8 3).snake.length = (resetGame 12 8 3).score + 3 := by
  have h := spec_C10_length_score 12 8 (resetGame 12 8 3)
    (Reachable.reset 3) (by decide)
  exact ⟨by decide, h⟩
